import Mathlib

/-!
Shallow embedding of the pure string-processing helpers of `ctf_browser.py`
(class `CTFBrowser`): token extraction, base64 decoding, flag-question
heuristics, required-prefix extraction, the iterative decode loop of
`decode_and_submit_from_question`, and `decode_try_double`.

Python strings are modelled as Lean `String` / `List Char`; machine-level
byte strings as `List Nat` (each element < 256).  Fallible operations
(`base64.b64decode`, `bytes.decode('utf-8')`) return `Option`.
-/

namespace CTF

/-- Characters of the standard base64 alphabet `[A-Za-z0-9+/]`. -/
def isB64Char (c : Char) : Bool :=
  c.isAlphanum || c == '+' || c == '/'

/-- ASCII whitespace recognised by Python's `str.strip()` and the regex
class `\s` (restricted to ASCII): space, tab, LF, CR, VT, FF. -/
def isPySpace (c : Char) : Bool :=
  c == ' ' || c == '\t' || c == '\n' || c == '\r' || c == '\x0b' || c == '\x0c'

/-- Word characters of the regex class `\w` / `[A-Za-z0-9_]` (ASCII). -/
def isWordChar (c : Char) : Bool :=
  c.isAlphanum || c == '_'

/-- Characters of the regex class `[A-Za-z0-9\-_]` used by the
`Answer Example Format` pattern. -/
def isWordDash (c : Char) : Bool :=
  c.isAlphanum || c == '-' || c == '_'

/-- ASCII uppercase letters `[A-Z]`. -/
def isUpperAZ (c : Char) : Bool :=
  c.isUpper

/-- Python `str.strip()` on a character list: remove leading and trailing
whitespace. -/
def pyStrip (l : List Char) : List Char :=
  ((l.dropWhile isPySpace).reverse.dropWhile isPySpace).reverse

/-- Python `str.strip()` on a `String`. -/
def pyStripStr (s : String) : String :=
  String.mk (pyStrip s.data)

/-- Six-bit value of a base64 alphabet character (`table_a2b_base64`). -/
def b64Val (c : Char) : Nat :=
  let n := c.toNat
  if 65 ≤ n ∧ n ≤ 90 then n - 65
  else if 97 ≤ n ∧ n ≤ 122 then n - 71
  else if 48 ≤ n ∧ n ≤ 57 then n + 4
  else if c == '+' then 62
  else 63

/-- Byte output of base64 data characters (6-bit values), following the
quad accumulator of CPython `binascii.a2b_base64`: each full quad yields
3 bytes, a trailing pair yields 1 byte, a trailing triple yields 2 bytes.
A trailing single value never reaches this function on the success paths
of `a2b_base64` below. -/
def quadBytes : List Nat → List Nat
  | a :: b :: c :: d :: rest =>
      (a * 4 + b / 16) :: ((b % 16) * 16 + c / 4) :: ((c % 4) * 64 + d) :: quadBytes rest
  | [a, b] => [a * 4 + b / 16]
  | [a, b, c] => [a * 4 + b / 16, (b % 16) * 16 + c / 4]
  | _ => []

/-- CPython `binascii.a2b_base64` (non-strict mode, CPython ≥ 3.10),
restricted to inputs that already passed the `validate=True` shape check
of `base64.b64decode`, i.e. of the form `data-chars ++ pads` with
`pads ≤ 2` pad characters.  With `q = data length mod 4`:
`q = 1` always fails; `q = 2` needs both pads to close the quad;
`q = 3` needs at least one pad; `q = 0` succeeds and trailing pads are
ignored (the pad branch fires only at quad positions 2 and 3). -/
def a2b_base64 (ds : List Char) (pads : Nat) : Option (List Nat) :=
  let q := ds.length % 4
  if q = 1 then none
  else if q = 2 ∧ pads < 2 then none
  else if q = 3 ∧ pads < 1 then none
  else some (quadBytes (ds.map b64Val))

/-- UTF-8 continuation byte `0x80..0xBF`. -/
def isCont (b : Nat) : Bool :=
  decide (128 ≤ b) && decide (b < 192)

/-- Second-byte restriction for 3-byte sequences: excludes overlong
encodings (lead `0xE0`) and surrogates (lead `0xED`). -/
def utf3Ok (b c1 : Nat) : Bool :=
  (b != 224 || decide (160 ≤ c1)) && (b != 237 || decide (c1 < 160))

/-- Second-byte restriction for 4-byte sequences: excludes overlong
encodings (lead `0xF0`) and code points above `U+10FFFF` (lead `0xF4`). -/
def utf4Ok (b c1 : Nat) : Bool :=
  (b != 240 || decide (144 ≤ c1)) && (b != 244 || decide (c1 < 144))

/-- Prepend the character with code point `n` to a decode result. -/
def consChar (n : Nat) (o : Option (List Char)) : Option (List Char) :=
  o.map (fun l => Char.ofNat n :: l)

/-- Strict UTF-8 decoding of a byte list, as `bytes.decode('utf-8')`:
rejects stray continuation bytes, overlong encodings, surrogates and
code points above `U+10FFFF`. -/
def utf8Decode : List Nat → Option (List Char)
  | [] => some []
  | b :: rest =>
      if b < 128 then consChar b (utf8Decode rest)
      else if b < 194 then none
      else if b < 224 then
        match rest with
        | c1 :: r =>
            if isCont c1 then consChar ((b % 32) * 64 + c1 % 64) (utf8Decode r)
            else none
        | [] => none
      else if b < 240 then
        match rest with
        | c1 :: c2 :: r =>
            if isCont c1 && isCont c2 && utf3Ok b c1 then
              consChar ((b % 16) * 4096 + (c1 % 64) * 64 + c2 % 64) (utf8Decode r)
            else none
        | _ => none
      else if b < 245 then
        match rest with
        | c1 :: c2 :: c3 :: r =>
            if isCont c1 && isCont c2 && isCont c3 && utf4Ok b c1 then
              consChar ((b % 8) * 262144 + (c1 % 64) * 4096 + (c2 % 64) * 64 + c3 % 64)
                (utf8Decode r)
            else none
        | _ => none
      else none

/-- Python `s.encode('ascii')` succeeds exactly when every character is
ASCII. -/
def asciiOnly (l : List Char) : Bool :=
  l.all (fun c => decide (c.toNat < 128))

/-- The `validate=True` shape check of `base64.b64decode`:
`re.fullmatch(b'[A-Za-z0-9+/]*={0,2}', s)`, i.e. a (possibly empty) run
of base64 alphabet characters followed by at most two `=`.  The part
after the maximal alphabet run is `dropWhile isB64Char`. -/
def b64FormatOK (l : List Char) : Bool :=
  (l.dropWhile isB64Char).all (fun c => c == '=') && decide ((l.dropWhile isB64Char).length ≤ 2)

/-- Model of `CTFBrowser.try_base64_decode`: `base64.b64decode(s, validate=True)`
followed by `decoded_bytes.decode('utf-8')`; any failure is swallowed
and reported as `None`.  The data characters are the maximal alphabet
run and the pad count is the length of the validated `=` tail. -/
def try_base64_decode (s : String) : Option String :=
  if asciiOnly s.data then
    if b64FormatOK s.data then
      match a2b_base64 (s.data.takeWhile isB64Char) (s.data.dropWhile isB64Char).length with
      | some bytes => (utf8Decode bytes).map String.mk
      | none => none
    else none
  else none

/-- Case-insensitive literal match at the head of a character list:
`pat` is stored lower-cased, and each text character is lower-cased before
comparison, as the `re.IGNORECASE` literals of the source do (ASCII). -/
def lowerStarts : List Char → List Char → Bool
  | [], _ => true
  | _ :: _, [] => false
  | p :: ps, c :: cs => (c.toLower == p) && lowerStarts ps cs

/-- The literal head of the pattern `r'message:\s*([A-Za-z0-9+/]+=*)'`. -/
def msgKw : List Char := "message:".data

/-- Continuation of the `message:` pattern at a fixed position:
`\s*` (greedy; no backtracking can help, as the group class excludes
whitespace), then the group `[A-Za-z0-9+/]+=*`, greedy in both parts. -/
def tokenAfter (rest : List Char) : Option (List Char) :=
  if (rest.dropWhile isPySpace).takeWhile isB64Char = [] then none
  else
    some ((rest.dropWhile isPySpace).takeWhile isB64Char ++
      ((rest.dropWhile isPySpace).dropWhile isB64Char).takeWhile (fun c => c == '='))

/-- Leftmost match of `re.search(r'message:\s*([A-Za-z0-9+/]+=*)', text,
re.IGNORECASE)`, returning the captured group: a match can only start at
an occurrence of the literal `message:`, and a position where the group
finds no character is skipped in favour of later positions. -/
def findMessageToken : List Char → Option (List Char)
  | [] => none
  | c :: t =>
      if lowerStarts msgKw (c :: t) then
        match tokenAfter ((c :: t).drop msgKw.length) with
        | some tok => some tok
        | none => findMessageToken t
      else findMessageToken t

/-- The cleanup `re.sub(r'[^A-Za-z0-9+/=]+$', '', token)`: remove the
maximal trailing run of characters outside `[A-Za-z0-9+/=]`. -/
def stripTrailingJunk (l : List Char) : List Char :=
  (l.reverse.dropWhile (fun c => !(isB64Char c || c == '='))).reverse

/-- Model of `CTFBrowser.extract_encoded_token`: `None` for falsy text, else the
`message:` group, stripped and with trailing non-base64 characters
removed, or `None` when the pattern does not match. -/
def extract_encoded_token (text : String) : Option String :=
  if text.data = [] then none
  else
    match findMessageToken text.data with
    | some tok => some (String.mk (stripTrailingJunk (pyStrip tok)))
    | none => none

/-- Python substring containment `needle in hay`. -/
def containsTok : List Char → List Char → Bool
  | [], n => n.isEmpty
  | c :: t, n => n.isPrefixOf (c :: t) || containsTok t n

/-- The keyword list of `is_flag_like_question`, in source order. -/
def keywords : List (List Char) :=
  ["decode".data, "decoding".data, "base64".data, "hex".data, "rot13".data, "flag".data,
   "cipher".data, "ciphertext".data, "answer example".data, "example format".data,
   "flag format".data, "encoded".data]

/-- Success of `re.search(r"[A-Za-z0-9+/]{8,}={0,2}", text)`: since the
`={0,2}` part may match empty, the search succeeds exactly when some
position starts a run of at least 8 base64 alphabet characters. -/
def hasB64Run8 : List Char → Bool
  | [] => false
  | c :: t => decide (8 ≤ ((c :: t).takeWhile isB64Char).length) || hasB64Run8 t

/-- Model of `CTFBrowser.is_flag_like_question`: falsy text is rejected, then each
keyword is sought in the lower-cased text, then the base64-shaped pattern
is sought in the original text. -/
def is_flag_like_question (text : String) : Bool :=
  if text.data = [] then false
  else
    keywords.any (fun k => containsTok (text.data.map Char.toLower) k) || hasB64Run8 text.data

/-- The literal head of the `Answer Example Format` pattern, lower-cased
for the `re.IGNORECASE` comparison. -/
def aefKw : List Char := "answer example format".data

/-- The capture group `([A-Za-z0-9\-_]+-[A-Za-z0-9\-_]+)` anchored at a
position.  Both `+` parts are greedy over a class that contains `-`
itself, so a successful match always captures the entire maximal run of
`[A-Za-z0-9\-_]` characters, and the match succeeds exactly when that
run has an interior `-`: one at an index `k` with `1 ≤ k ≤ run.length - 2`,
equivalently a `-` among `(run.drop 1).dropLast`. -/
def groupAt (l : List Char) : Option (List Char) :=
  if '-' ∈ ((l.takeWhile isWordDash).drop 1).dropLast then some (l.takeWhile isWordDash)
  else none

/-- Continuation `\s*[:\-]?\s*(group)` of the `Answer Example Format`
pattern at a fixed position.  The leading `\s*` is effectively greedy
without backtracking (no later atom matches whitespace).  The optional
separator first tries to consume a `:` or `-`; on group failure it
backtracks to matching empty, which can only help when the separator
character was `-` (a `:` can never start the group). -/
def afterKeyword (rest : List Char) : Option (List Char) :=
  match rest.dropWhile isPySpace with
  | [] => none
  | c :: t =>
      if c == ':' then groupAt (t.dropWhile isPySpace)
      else if c == '-' then
        match groupAt (t.dropWhile isPySpace) with
        | some g => some g
        | none => groupAt (c :: t)
      else groupAt (c :: t)

/-- Leftmost match of `re.search(r'Answer Example Format\s*[:\-]?\s*
([A-Za-z0-9\-_]+-[A-Za-z0-9\-_]+)', text, re.IGNORECASE)`, returning the
captured group. -/
def searchAEF : List Char → Option (List Char)
  | [] => none
  | c :: t =>
      if lowerStarts aefKw (c :: t) then
        match afterKeyword ((c :: t).drop aefKw.length) with
        | some g => some g
        | none => searchAEF t
      else searchAEF t

/-- Word boundary `\b` before the current position, given the previous
character.  This formulation is valid exactly when the pattern
character that follows is a word character, which holds for both `\b`
uses below (`C` and `[A-Z]`); at positions whose text character is not a
word character those patterns fail regardless. -/
def boundaryBefore : Option Char → Bool
  | none => true
  | some p => !(isWordChar p)

/-- The literal of the pattern `r'\b(CAHSI-)'` (case-sensitive). -/
def cahsiLit : List Char := "CAHSI-".data

/-- Success of `re.search(r'\b(CAHSI-)', text)`, scanning with the
previous character carried for the boundary test. -/
def searchCahsiLit : Option Char → List Char → Bool
  | _, [] => false
  | prev, c :: t =>
      (boundaryBefore prev && cahsiLit.isPrefixOf (c :: t)) || searchCahsiLit (some c) t

/-- The group `([A-Z]{2,10}-)` anchored at a position.  Greedy repetition
tries 10 letters down to 2; with `run` the maximal uppercase run from
this position, the only count that can be followed by `-` is
`run.length` itself, so the match succeeds exactly when
`2 ≤ run.length ≤ 10` and the run is followed by `-`. -/
def upperRunDash (l : List Char) : Option (List Char) :=
  match l.dropWhile isUpperAZ with
  | '-' :: _ =>
      if 2 ≤ (l.takeWhile isUpperAZ).length ∧ (l.takeWhile isUpperAZ).length ≤ 10 then
        some (l.takeWhile isUpperAZ ++ ['-'])
      else none
  | _ => none

/-- Leftmost match of `re.search(r'\b([A-Z]{2,10}-)', text)`, returning
the captured group. -/
def scanUpperDash : Option Char → List Char → Option (List Char)
  | _, [] => none
  | prev, c :: t =>
      if boundaryBefore prev then
        match upperRunDash (c :: t) with
        | some g => some g
        | none => scanUpperDash (some c) t
      else scanUpperDash (some c) t

/-- Post-processing of the `Answer Example Format` group:
`s.split('-')[0] + '-'` when the group contains a hyphen (`split('-')[0]`
is the part before the first hyphen), else the group itself. -/
def prefixFromGroup (s : List Char) : String :=
  if '-' ∈ s then String.mk (s.takeWhile (fun c => c != '-') ++ ['-'])
  else String.mk s

/-- Model of `CTFBrowser.extract_required_prefix_from_question`: try the
`Answer Example Format` pattern (splitting its group at the first `-`),
then the literal `CAHSI-`, then a generic uppercase prefix followed by a
hyphen. -/
def extract_required_prefix_from_question (text : String) : Option String :=
  if text.data = [] then none
  else
    match searchAEF text.data with
    | some s => some (prefixFromGroup s)
    | none =>
        if searchCahsiLit none text.data then some "CAHSI-"
        else
          match scanUpperDash none text.data with
          | some g => some (String.mk g)
          | none => none

/-- Model of `decoded.startswith('CAHSI')`. -/
def startsCAHSI (s : String) : Bool :=
  "CAHSI".data.isPrefixOf s.data

/-- Outcome of the decode loop of `decode_and_submit_from_question`:
the candidate-found break (with the stripped decode and the iteration
count), the in-loop early return on decode failure (with the iteration
count), or the while-else exit after the cap. -/
inductive LoopResult where
  | found (candidate : String) (iteration : Nat)
  | decodeFailed (iteration : Nat)
  | exhausted
deriving DecidableEq

/-- The iteration cap `max_iterations = 10` of the decode loop. -/
def max_iterations : Nat := 10

/-- One-iteration-at-a-time model of the `while iteration < max_iterations`
loop, with `fuel = max_iterations - iteration` remaining iterations. -/
def decodeLoopAux : String → Nat → Nat → LoopResult
  | _, _, 0 => .exhausted
  | current, iteration, fuel + 1 =>
      match try_base64_decode current with
      | none => .decodeFailed (iteration + 1)
      | some decoded =>
          if startsCAHSI (pyStripStr decoded) then .found (pyStripStr decoded) (iteration + 1)
          else decodeLoopAux (pyStripStr decoded) (iteration + 1) fuel

/-- The decode loop of `decode_and_submit_from_question`, started on the
extracted token with `iteration = 0`. -/
def decodeLoop (token : String) : LoopResult :=
  decodeLoopAux token 0 max_iterations

/-- Pure skeleton of `decode_and_submit_from_question`: the returned
boolean, with the outcome of the browser-side `submit_answer` call passed
in as `submitOk`.  The final validation is
`re.search(r'[A-Za-z0-9]', candidate)`. -/
def decode_and_submit_result (question : String) (submitOk : Bool) : Bool :=
  match extract_encoded_token question with
  | none => false
  | some tok =>
      if tok.data = [] then false
      else
        match decodeLoop tok with
        | .decodeFailed _ => false
        | .exhausted => false
        | .found candidate _ =>
            if candidate.data.any Char.isAlphanum then submitOk else false

/-- One pass of the decode loop body: decode, then strip. -/
def decodeStep (s : String) : Option String :=
  (try_base64_decode s).map pyStripStr

/-- The stripped decode produced by iteration `k` of the loop (when all
decodes up to there succeed): `k` applications of `decodeStep`. -/
def iterN : Nat → String → Option String
  | 0, s => some s
  | k + 1, s => (iterN k s).bind decodeStep

/-- An iteration outcome that does not trigger the candidate-found
branch: either the decode failed or the stripped decode does not start
with `CAHSI`. -/
def noCAHSIYet : Option String → Bool
  | some s => !(startsCAHSI s)
  | none => true

/-- The punctuation part of the readability class
`[A-Za-z0-9\s\-_,.:;@()]` of `decode_try_double`. -/
def answerPunct : List Char := "-_,.:;@()".data

/-- Membership in the readability class `[A-Za-z0-9\s\-_,.:;@()]`;
`re.search` of `[...]+` succeeds exactly when some character is in the
class. -/
def isAnswerChar (c : Char) : Bool :=
  c.isAlphanum || isPySpace c || answerPunct.contains c

/-- The variant loop of `decode_try_double`: first truthy (non-empty)
successful decode among the candidate strings, else `None`. -/
def firstTruthy : List String → Option String
  | [] => none
  | v :: rest =>
      match try_base64_decode v with
      | some d => if d.data = [] then firstTruthy rest else some d
      | none => firstTruthy rest

/-- The candidate list `[s.strip(), s.replace('\n', ''), s.rstrip('=') + '==']`. -/
def tryVariants (s : String) : List String :=
  [pyStripStr s,
   String.mk (s.data.filter (fun c => c != '\n')),
   String.mk ((s.data.reverse.dropWhile (fun c => c == '=')).reverse ++ "==".data)]

/-- Model of `CTFBrowser.decode_try_double`.  Python truthiness: an empty decoded
string counts as a failed first decode and falls through to the variant
loop, and an empty second decode falls back to the first. -/
def decode_try_double (s : String) : Option String :=
  match try_base64_decode s with
  | some first =>
      if first.data = [] then firstTruthy (tryVariants s)
      else
        if first.data.any isAnswerChar then some first
        else
          match try_base64_decode first with
          | some second => if second.data = [] then some first else some second
          | none => some first
  | none => firstTruthy (tryVariants s)

/-! ## General helper lemmas -/

theorem dropWhile_eq_self_of_all {p : Char → Bool} {l : List Char}
    (h : ∀ c ∈ l, p c = false) : l.dropWhile p = l := by
  cases l with
  | nil => rfl
  | cons a t => rw [List.dropWhile_cons, h a (by simp)]; simp

theorem takeWhile_append_all {p : Char → Bool} {l m : List Char}
    (h : ∀ c ∈ l, p c = true) : (l ++ m).takeWhile p = l ++ m.takeWhile p := by
  induction l with
  | nil => simp
  | cons a t ih =>
      rw [List.cons_append, List.takeWhile_cons, h a (by simp)]
      simp only [ih (fun c hc => h c (by simp [hc])), List.cons_append, if_true]

/-! ## Claim theorems -/

/-- Claim C4: `extract_encoded_token` applied to the exact input string
`"message: QUFBQQ=="` returns the token `"QUFBQQ=="`. -/
theorem extract_encoded_token_message_example :
    extract_encoded_token "message: QUFBQQ==" = some "QUFBQQ==" := by decide

/-- Claim C5: `try_base64_decode` applied to the exact input string
`"Q0FIU0ktVEVTVA=="` returns the string `"CAHSI-TEST"`. -/
theorem try_base64_decode_cahsi_test :
    try_base64_decode "Q0FIU0ktVEVTVA==" = some "CAHSI-TEST" := by decide

/-- Claim C2: `is_flag_like_question` returns `true` for every text that
contains `"base64"` case-insensitively, and `false` for every text that
contains none of the decoding keywords (case-insensitively) and no run
of 8 or more base64-shaped characters. -/
theorem is_flag_like_question_spec :
    ∀ text : String,
      (containsTok (text.data.map Char.toLower) "base64".data = true →
        is_flag_like_question text = true)
      ∧ ((∀ k ∈ keywords, containsTok (text.data.map Char.toLower) k = false) →
          hasB64Run8 text.data = false →
          is_flag_like_question text = false) := by
  intro text
  constructor
  · intro h
    by_cases he : text.data = []
    · rw [he] at h
      exact absurd h (by decide)
    · unfold is_flag_like_question
      rw [if_neg he]
      have hany : keywords.any (fun k => containsTok (text.data.map Char.toLower) k) = true :=
        List.any_eq_true.mpr ⟨"base64".data, by decide, h⟩
      rw [hany, Bool.true_or]
  · intro hk hr
    unfold is_flag_like_question
    by_cases he : text.data = []
    · rw [if_pos he]
    · rw [if_neg he, hr]
      refine Bool.or_eq_false_iff.mpr ⟨?_, rfl⟩
      exact List.any_eq_false.mpr (fun k hm => by simp [hk k hm])

/-- Witness for C2 at concrete inputs: a text containing `Base64` is
accepted, a text with no keyword and no base64-shaped run is rejected. -/
theorem is_flag_like_question_spec_witness :
    is_flag_like_question "use Base64 here" = true ∧ is_flag_like_question "hi there." = false :=
  ⟨(is_flag_like_question_spec "use Base64 here").1 (by decide),
   (is_flag_like_question_spec "hi there.").2 (by decide) (by decide)⟩

/-- Claim C6: `try_base64_decode` is total, returning `some` or `none`
for every string, and a successful decode implies the input passed the
ASCII encoding step and the `validate=True` shape check. -/
theorem try_base64_decode_total :
    ∀ s : String,
      ((∃ d, try_base64_decode s = some d) ∨ try_base64_decode s = none)
      ∧ (∀ d, try_base64_decode s = some d →
          asciiOnly s.data = true ∧ b64FormatOK s.data = true) := by
  intro s
  constructor
  · cases h : try_base64_decode s with
    | some d => exact Or.inl ⟨d, rfl⟩
    | none => exact Or.inr rfl
  · intro d hd
    unfold try_base64_decode at hd
    by_cases ha : asciiOnly s.data = true
    · by_cases hb : b64FormatOK s.data = true
      · exact ⟨ha, hb⟩
      · rw [if_pos ha, if_neg hb] at hd
        exact absurd hd (by simp)
    · rw [if_neg ha] at hd
      exact absurd hd (by simp)

/-- Witness for C6: the successful decode of `"UVE9PQ=="` certifies its
validity. -/
theorem try_base64_decode_total_witness :
    asciiOnly ("UVE9PQ==" : String).data = true ∧ b64FormatOK ("UVE9PQ==" : String).data = true :=
  (try_base64_decode_total "UVE9PQ==").2 "QQ==" (by decide)

/-- Claim C10: when the first decode succeeds and its result contains a
character of the readability class `[A-Za-z0-9\s\-_,.:;@()]`,
`decode_try_double` returns that first decoded string (no second decode
is taken). -/
theorem decode_try_double_first_readable :
    ∀ s first : String,
      try_base64_decode s = some first →
      first.data.any isAnswerChar = true →
      decode_try_double s = some first := by
  intro s first h1 h2
  have hne : first.data ≠ [] := by
    intro he
    rw [he] at h2
    exact absurd h2 (by decide)
  simp only [decode_try_double, h1]
  rw [if_neg hne, if_pos h2]

/-- Witness for C10: the doubly-encoded token `"UVE9PQ=="` first decodes
to `"QQ=="`, which contains readable characters, so the second decode to
`"A"` is not taken. -/
theorem decode_try_double_first_readable_witness :
    decode_try_double "UVE9PQ==" = some "QQ==" :=
  decode_try_double_first_readable "UVE9PQ==" "QQ==" (by decide) (by decide)

theorem class_not_space {c : Char} (h : (isB64Char c || c == '=') = true) :
    isPySpace c = false := by
  cases hs : isPySpace c
  · rfl
  · exfalso
    have hc : c = ' ' ∨ c = '\t' ∨ c = '\n' ∨ c = '\r' ∨ c = '\x0b' ∨ c = '\x0c' := by
      simpa [isPySpace, Bool.or_eq_true, beq_iff_eq, or_assoc] using hs
    rcases hc with rfl | rfl | rfl | rfl | rfl | rfl <;> revert h <;> decide

theorem tokenAfter_shape {r t : List Char} (h : tokenAfter r = some t) :
    t ≠ [] ∧ t.all (fun c => isB64Char c || c == '=') = true := by
  unfold tokenAfter at h
  split at h
  · exact absurd h (by simp)
  · next hrun =>
      injection h with h
      subst h
      refine ⟨fun hh => hrun (List.append_eq_nil.mp hh).1, ?_⟩
      rw [List.all_eq_true]
      intro c hc
      rcases List.mem_append.mp hc with hm | hm
      · have hb := List.mem_takeWhile_imp hm
        simp [hb]
      · have hb := List.mem_takeWhile_imp hm
        simp only at hb
        simp [hb]

theorem findMessageToken_shape : ∀ {l t : List Char}, findMessageToken l = some t →
    t ≠ [] ∧ t.all (fun c => isB64Char c || c == '=') = true := by
  intro l
  induction l with
  | nil => intro t h; exact absurd h (by simp [findMessageToken])
  | cons c cs ih =>
      intro t h
      simp only [findMessageToken] at h
      split at h
      · split at h
        · next heq => injection h with h; subst h; exact tokenAfter_shape heq
        · exact ih h
      · exact ih h

theorem pyStrip_eq_self {l : List Char} (h : ∀ c ∈ l, isPySpace c = false) :
    pyStrip l = l := by
  unfold pyStrip
  rw [dropWhile_eq_self_of_all h,
    dropWhile_eq_self_of_all (fun c hc => h c (List.mem_reverse.mp hc)),
    List.reverse_reverse]

theorem stripTrailingJunk_eq_self {l : List Char}
    (h : ∀ c ∈ l, (isB64Char c || c == '=') = true) : stripTrailingJunk l = l := by
  unfold stripTrailingJunk
  have h2 : ∀ c ∈ l.reverse, (fun c => !(isB64Char c || c == '=')) c = false := by
    intro c hc
    simp [h c (List.mem_reverse.mp hc)]
  rw [dropWhile_eq_self_of_all h2, List.reverse_reverse]

/-- Claim C9: every token returned by `extract_encoded_token` is
non-empty and consists only of base64-alphabet characters and `=`. -/
theorem extract_encoded_token_shape :
    ∀ (text tok : String), extract_encoded_token text = some tok →
      tok ≠ "" ∧ tok.data.all (fun c => isB64Char c || c == '=') = true := by
  intro text tok h
  unfold extract_encoded_token at h
  split at h
  · exact absurd h (by simp)
  · split at h
    · next t0 heq =>
        injection h with h
        obtain ⟨hne, hall⟩ := findMessageToken_shape heq
        have hptw : ∀ c ∈ t0, (isB64Char c || c == '=') = true :=
          fun c hc => List.all_eq_true.mp hall c hc
        have hsp : pyStrip t0 = t0 :=
          pyStrip_eq_self (fun c hc => class_not_space (hptw c hc))
        subst h
        rw [hsp, stripTrailingJunk_eq_self hptw]
        constructor
        · intro he
          apply hne
          have hd : (String.mk t0).data = ("" : String).data := by rw [he]
          exact hd
        · exact hall
    · exact absurd h (by simp)

/-- Witness for C9 at the concrete question `"message: QUFBQQ=="`. -/
theorem extract_encoded_token_shape_witness :
    ("QUFBQQ==" : String) ≠ "" ∧
      ("QUFBQQ==" : String).data.all (fun c => isB64Char c || c == '=') = true :=
  extract_encoded_token_shape "message: QUFBQQ==" "QUFBQQ==" (by decide)

theorem groupAt_dash {l g : List Char} (h : groupAt l = some g) : '-' ∈ g := by
  unfold groupAt at h
  split at h
  · next hmem =>
      injection h with h
      subst h
      exact List.drop_subset 1 _ (List.dropLast_subset _ hmem)
  · exact absurd h (by simp)

theorem afterKeyword_dash {r g : List Char} (h : afterKeyword r = some g) : '-' ∈ g := by
  unfold afterKeyword at h
  split at h
  · exact absurd h (by simp)
  · split at h
    · exact groupAt_dash h
    · split at h
      · split at h
        · next heq => injection h with h; subst h; exact groupAt_dash heq
        · exact groupAt_dash h
      · exact groupAt_dash h

theorem searchAEF_dash : ∀ {l g : List Char}, searchAEF l = some g → '-' ∈ g := by
  intro l
  induction l with
  | nil => intro g h; exact absurd h (by simp [searchAEF])
  | cons c cs ih =>
      intro g h
      simp only [searchAEF] at h
      split at h
      · split at h
        · next heq => injection h with h; subst h; exact afterKeyword_dash heq
        · exact ih h
      · exact ih h

theorem upperRunDash_ends {l g : List Char} (h : upperRunDash l = some g) :
    ∃ r, g = r ++ ['-'] := by
  unfold upperRunDash at h
  split at h
  · split at h
    · injection h with h
      exact ⟨_, h.symm⟩
    · exact absurd h (by simp)
  · exact absurd h (by simp)

theorem scanUpperDash_ends :
    ∀ {l : List Char} {prev : Option Char} {g : List Char},
      scanUpperDash prev l = some g → ∃ r, g = r ++ ['-'] := by
  intro l
  induction l with
  | nil => intro prev g h; exact absurd h (by simp [scanUpperDash])
  | cons c cs ih =>
      intro prev g h
      simp only [scanUpperDash] at h
      split at h
      · split at h
        · next heq => injection h with h; subst h; exact upperRunDash_ends heq
        · exact ih h
      · exact ih h

theorem mk_concat_dash_shape (x : List Char) :
    String.mk (x ++ ['-']) ≠ "" ∧ (String.mk (x ++ ['-'])).data.getLast? = some '-' := by
  constructor
  · intro he
    have hd : (String.mk (x ++ ['-'])).data = ("" : String).data := by rw [he]
    simp at hd
  · exact List.getLast?_concat _

/-- Claim C8: every non-`None` result of
`extract_required_prefix_from_question` is a non-empty string ending
with `-`. -/
theorem extract_required_prefix_shape :
    ∀ (text p : String), extract_required_prefix_from_question text = some p →
      p ≠ "" ∧ p.data.getLast? = some '-' := by
  intro text p h
  unfold extract_required_prefix_from_question at h
  split at h
  · exact absurd h (by simp)
  · split at h
    · next s heq =>
        injection h with h
        subst h
        unfold prefixFromGroup
        split
        · exact mk_concat_dash_shape _
        · next hnot => exact absurd (searchAEF_dash heq) hnot
    · split at h
      · injection h with h
        subst h
        exact ⟨by decide, by decide⟩
      · split at h
        · next g heq =>
            injection h with h
            subst h
            obtain ⟨r, rfl⟩ := scanUpperDash_ends heq
            exact mk_concat_dash_shape r
        · exact absurd h (by simp)

/-- Witness for C8 at a concrete text matched by the `CAHSI-` literal
branch. -/
theorem extract_required_prefix_shape_witness :
    ("CAHSI-" : String) ≠ "" ∧ ("CAHSI-" : String).data.getLast? = some '-' :=
  extract_required_prefix_shape "use CAHSI- now" "CAHSI-" (by decide)

theorem decodeLoopAux_step (current : String) (it fuel : Nat) :
    decodeLoopAux current it (fuel + 1) =
      match try_base64_decode current with
      | none => .decodeFailed (it + 1)
      | some decoded =>
          if startsCAHSI (pyStripStr decoded) then .found (pyStripStr decoded) (it + 1)
          else decodeLoopAux (pyStripStr decoded) (it + 1) fuel := rfl

theorem decodeLoopAux_step_none {current : String} {it fuel : Nat}
    (h : try_base64_decode current = none) :
    decodeLoopAux current it (fuel + 1) = .decodeFailed (it + 1) := by
  rw [decodeLoopAux_step, h]

theorem decodeLoopAux_step_some {current decoded : String} {it fuel : Nat}
    (h : try_base64_decode current = some decoded) :
    decodeLoopAux current it (fuel + 1) =
      if startsCAHSI (pyStripStr decoded) then .found (pyStripStr decoded) (it + 1)
      else decodeLoopAux (pyStripStr decoded) (it + 1) fuel := by
  rw [decodeLoopAux_step, h]

theorem decodeLoopAux_iter_le :
    ∀ (fuel : Nat) (current : String) (it : Nat),
      (∀ c k, decodeLoopAux current it fuel = .found c k → k ≤ it + fuel)
      ∧ (∀ k, decodeLoopAux current it fuel = .decodeFailed k → k ≤ it + fuel) := by
  intro fuel
  induction fuel with
  | zero =>
      intro current it
      refine ⟨fun c k h => ?_, fun k h => ?_⟩ <;> exact absurd h (by simp [decodeLoopAux])
  | succ n ih =>
      intro current it
      constructor
      · intro c k h
        cases hdec : try_base64_decode current with
        | none =>
            rw [decodeLoopAux_step_none hdec] at h
            exact absurd h (by simp)
        | some decoded =>
            rw [decodeLoopAux_step_some hdec] at h
            by_cases hc : startsCAHSI (pyStripStr decoded) = true
            · rw [if_pos hc] at h
              injection h with h1 h2
              omega
            · rw [if_neg hc] at h
              have := (ih (pyStripStr decoded) (it + 1)).1 c k h
              omega
      · intro k h
        cases hdec : try_base64_decode current with
        | none =>
            rw [decodeLoopAux_step_none hdec] at h
            injection h with h1
            omega
        | some decoded =>
            rw [decodeLoopAux_step_some hdec] at h
            by_cases hc : startsCAHSI (pyStripStr decoded) = true
            · rw [if_pos hc] at h
              exact absurd h (by simp)
            · rw [if_neg hc] at h
              have := (ih (pyStripStr decoded) (it + 1)).2 k h
              omega

/-- Claim C7: the decode loop of `decode_and_submit_from_question`
terminates for every token within the cap `max_iterations = 10`: both
the candidate-found break and the decode-failure return happen at an
iteration count of at most 10. -/
theorem decode_loop_iterations_bounded :
    max_iterations = 10 ∧
    ∀ token : String,
      (∀ c k, decodeLoop token = .found c k → k ≤ max_iterations)
      ∧ (∀ k, decodeLoop token = .decodeFailed k → k ≤ max_iterations) := by
  refine ⟨rfl, fun token => ⟨fun c k h => ?_, fun k h => ?_⟩⟩
  · have := (decodeLoopAux_iter_le max_iterations token 0).1 c k h
    omega
  · have := (decodeLoopAux_iter_le max_iterations token 0).2 k h
    omega

/-- Witness for C7: the doubly-encoded token stops at iteration 2, within
the cap. -/
theorem decode_loop_iterations_bounded_witness : (2 : Nat) ≤ max_iterations :=
  (decode_loop_iterations_bounded.2 "UTBGSVUwa3RWRVZUVkE9PQ==").1 (pyStripStr "CAHSI-TEST") 2
    (by decide)

theorem decodeLoopAux_no_found
    {token : String} (hno : ∀ k, k < max_iterations → noCAHSIYet (iterN (k + 1) token) = true) :
    ∀ (fuel j : Nat) (current : String), j + fuel = max_iterations →
      iterN j token = some current →
      ∀ c k, decodeLoopAux current j fuel ≠ .found c k := by
  intro fuel
  induction fuel with
  | zero =>
      intro j current hj hcur c k h
      exact absurd h (by simp [decodeLoopAux])
  | succ n ih =>
      intro j current hj hcur c k h
      cases hdec : try_base64_decode current with
      | none =>
          rw [decodeLoopAux_step_none hdec] at h
          exact absurd h (by simp)
      | some decoded =>
          rw [decodeLoopAux_step_some hdec] at h
          have hiter : iterN (j + 1) token = some (pyStripStr decoded) := by
            have e : iterN (j + 1) token = (iterN j token).bind decodeStep := rfl
            rw [e, hcur]
            simp [decodeStep, hdec]
          have hcf : startsCAHSI (pyStripStr decoded) = false := by
            have hh := hno j (by omega)
            rw [hiter] at hh
            simpa [noCAHSIYet] using hh
          rw [if_neg (by simp [hcf])] at h
          exact ih (j + 1) (pyStripStr decoded) (by omega) hiter c k h

/-- Claim C1 (amended): a token whose first decode succeeds with a
stripped result not starting with `CAHSI` and whose second decode
succeeds with a stripped result starting with `CAHSI` makes the loop
reach the candidate-found branch with that second stripped decode after
exactly two iterations; and a token none of whose (up to 10) iteration
results starts with `CAHSI` never reaches the candidate-found branch, so
`decode_and_submit_from_question` returns `False` — via the loop's
`else` branch when all ten decodes succeed, or via the in-loop
decode-failure return otherwise. -/
theorem decode_loop_two_iterations :
    (∀ token s1 s2 : String,
        try_base64_decode token = some s1 →
        startsCAHSI (pyStripStr s1) = false →
        try_base64_decode (pyStripStr s1) = some s2 →
        startsCAHSI (pyStripStr s2) = true →
        decodeLoop token = .found (pyStripStr s2) 2)
    ∧ (∀ token : String,
        (∀ k, k < max_iterations → noCAHSIYet (iterN (k + 1) token) = true) →
        (∀ c k, decodeLoop token ≠ .found c k)
        ∧ ∀ (question : String) (submitOk : Bool),
            extract_encoded_token question = some token →
            decode_and_submit_result question submitOk = false) := by
  constructor
  · intro token s1 s2 h1 h2 h3 h4
    have e1 : decodeLoop token = decodeLoopAux token 0 (9 + 1) := rfl
    rw [e1, decodeLoopAux_step_some h1, if_neg (by simp [h2])]
    have e2 : (9 : Nat) = 8 + 1 := rfl
    rw [e2, decodeLoopAux_step_some h3, if_pos h4]
  · intro token hno
    have hmain := decodeLoopAux_no_found hno max_iterations 0 token (by omega) rfl
    refine ⟨fun c k => hmain c k, ?_⟩
    intro question submitOk hq
    simp only [decode_and_submit_result, hq]
    by_cases he : token.data = []
    · rw [if_pos he]
    · rw [if_neg he]
      cases hl : decodeLoop token with
      | found c k => exact absurd hl (hmain c k)
      | decodeFailed k => rfl
      | exhausted => rfl

/-- Counterexample for C1 as stated: for the token `"QQ=="` no iteration
yields a stripped decode starting with `CAHSI` (iteration 1 decodes to
`"A"`, iteration 2 fails to decode), yet the loop does not exit via its
`while`-`else` branch: it exits via the in-loop decode-failure return at
iteration 2. -/
theorem decode_loop_else_branch_counterexample :
    (∀ k, k < max_iterations → noCAHSIYet (iterN (k + 1) "QQ==") = true)
    ∧ decodeLoop "QQ==" = .decodeFailed 2
    ∧ decodeLoop "QQ==" ≠ .exhausted :=
  ⟨by decide, by decide, by decide⟩

/-- Witness for C1 at concrete tokens: the doubly-encoded `CAHSI-TEST`
token is found at iteration 2, and the never-`CAHSI` token `"QQ=="`
never reaches the candidate-found branch. -/
theorem decode_loop_two_iterations_witness :
    decodeLoop "UTBGSVUwa3RWRVZUVkE9PQ==" = .found (pyStripStr "CAHSI-TEST") 2
    ∧ decodeLoop "QQ==" ≠ .found "CAHSI-X" 1 :=
  ⟨decode_loop_two_iterations.1 "UTBGSVUwa3RWRVZUVkE9PQ==" "Q0FIU0ktVEVTVA==" "CAHSI-TEST"
      (by decide) (by decide) (by decide) (by decide),
   (decode_loop_two_iterations.2 "QQ==" (by decide)).1 "CAHSI-X" 1⟩

theorem searchAEF_cons_found {c : Char} {l g : List Char}
    (h1 : lowerStarts aefKw (c :: l) = true)
    (h2 : afterKeyword ((c :: l).drop aefKw.length) = some g) :
    searchAEF (c :: l) = some g := by
  simp only [searchAEF]
  rw [if_pos h1, h2]

theorem searchAEF_append (pre rest : List Char)
    (h : ∀ p, p < pre.length → lowerStarts aefKw ((pre ++ rest).drop p) = false) :
    searchAEF (pre ++ rest) = searchAEF rest := by
  induction pre with
  | nil => rfl
  | cons c t ih =>
      have h0 : lowerStarts aefKw (c :: (t ++ rest)) = false := by
        have hh := h 0 (by simp)
        simpa using hh
      rw [List.cons_append]
      simp only [searchAEF]
      rw [if_neg (by simp [h0])]
      exact ih (fun p hp => by
        have hh := h (p + 1) (by simpa using Nat.succ_lt_succ hp)
        simpa using hh)

theorem groupAt_cahsi (post : List Char) :
    groupAt ("CAHSI-ABCDE".data ++ post) =
      some ("CAHSI-ABCDE".data ++ post.takeWhile isWordDash) := by
  have htw : ("CAHSI-ABCDE".data ++ post).takeWhile isWordDash
      = "CAHSI-ABCDE".data ++ post.takeWhile isWordDash :=
    takeWhile_append_all (by decide)
  have hmem : '-' ∈ (("CAHSI-ABCDE".data ++ post.takeWhile isWordDash).drop 1).dropLast := by
    have ed : ("CAHSI-ABCDE".data ++ post.takeWhile isWordDash).drop 1
        = "AHSI-ABCDE".data ++ post.takeWhile isWordDash := rfl
    rw [ed]
    cases htww : post.takeWhile isWordDash with
    | nil => rw [List.append_nil]; decide
    | cons a tw =>
        rw [List.dropLast_append_cons]
        exact List.mem_append_left _ (by decide)
  unfold groupAt
  rw [htw, if_pos hmem]

theorem prefixFromGroup_cahsi (tw : List Char) :
    prefixFromGroup ("CAHSI-ABCDE".data ++ tw) = "CAHSI-" := by
  unfold prefixFromGroup
  rw [if_pos (List.mem_append_left _ (by decide))]
  have et : ("CAHSI-ABCDE".data ++ tw).takeWhile (fun c => c != '-') = "CAHSI".data := by
    have esp : ("CAHSI-ABCDE".data ++ tw)
        = "CAHSI".data ++ ('-' :: ("ABCDE".data ++ tw)) := rfl
    rw [esp, takeWhile_append_all (by decide), List.takeWhile_cons]
    simp
  rw [et]
  rfl

/-- Claim C3 (amended): `extract_required_prefix_from_question` returns
`"CAHSI-"` for every text that contains the substring
`"Answer Example Format: CAHSI-ABCDE"` with no earlier case-insensitive
occurrence of the keyword `Answer Example Format` before it. -/
theorem extract_prefix_cahsi_example :
    ∀ pre post : List Char,
      (∀ p, p < pre.length →
        lowerStarts aefKw
          ((pre ++ ("Answer Example Format: CAHSI-ABCDE".data ++ post)).drop p) = false) →
      extract_required_prefix_from_question
        (String.mk (pre ++ ("Answer Example Format: CAHSI-ABCDE".data ++ post)))
        = some "CAHSI-" := by
  intro pre post h
  have hfound : searchAEF ("Answer Example Format: CAHSI-ABCDE".data ++ post)
      = some ("CAHSI-ABCDE".data ++ post.takeWhile isWordDash) := by
    have esplit : "Answer Example Format: CAHSI-ABCDE".data ++ post
        = 'A' :: ("nswer Example Format: CAHSI-ABCDE".data ++ post) := rfl
    rw [esplit]
    apply searchAEF_cons_found
    · rfl
    · have egroup : (('A' :: ("nswer Example Format: CAHSI-ABCDE".data ++ post)).drop
          aefKw.length) = ':' :: (' ' :: ("CAHSI-ABCDE".data ++ post)) := rfl
      rw [egroup]
      have e3 : afterKeyword (':' :: (' ' :: ("CAHSI-ABCDE".data ++ post)))
          = groupAt ("CAHSI-ABCDE".data ++ post) := rfl
      rw [e3]
      exact groupAt_cahsi post
  have hne : pre ++ ("Answer Example Format: CAHSI-ABCDE".data ++ post) ≠ [] := by
    intro hh
    have h2 := (List.append_eq_nil.mp (List.append_eq_nil.mp hh).2).1
    simp at h2
  have hdata : (String.mk
      (pre ++ ("Answer Example Format: CAHSI-ABCDE".data ++ post))).data
      = pre ++ ("Answer Example Format: CAHSI-ABCDE".data ++ post) := rfl
  unfold extract_required_prefix_from_question
  rw [hdata, if_neg hne, searchAEF_append pre _ h, hfound]
  show some (prefixFromGroup ("CAHSI-ABCDE".data ++ post.takeWhile isWordDash)) = some "CAHSI-"
  rw [prefixFromGroup_cahsi]

/-- Counterexample for C3 as stated: this text contains the substring
`"Answer Example Format: CAHSI-ABCDE"`, but the leftmost match of the
pattern captures the earlier group `A-B`, so the function returns
`"A-"`, not `"CAHSI-"`. -/
theorem extract_prefix_cahsi_counterexample :
    containsTok
        ("Answer Example Format: A-B Answer Example Format: CAHSI-ABCDE" : String).data
        ("Answer Example Format: CAHSI-ABCDE" : String).data = true
    ∧ extract_required_prefix_from_question
        "Answer Example Format: A-B Answer Example Format: CAHSI-ABCDE" = some "A-"
    ∧ ("A-" : String) ≠ "CAHSI-" :=
  ⟨by decide, by decide, by decide⟩

/-- Witness for C3 (amended) at a concrete text with filler around the
substring. -/
theorem extract_prefix_cahsi_example_witness :
    extract_required_prefix_from_question
      (String.mk (['x', ' '] ++ ("Answer Example Format: CAHSI-ABCDE".data ++ ['!'])))
      = some "CAHSI-" :=
  extract_prefix_cahsi_example ['x', ' '] ['!'] (by decide)

end CTF
